import Mathlib

/-!
Verification of the task-routes handler (`src/unnamed/part_000`, an Express
router over a document store) against its specification.  The handler is
embedded shallowly: request bodies are JavaScript-like values, the store is a
list of task documents, each route handler is a pure function from caller
identity, request data and store state to an outcome and a new store state.
-/

namespace TaskApi

/-- ASCII whitespace recognized by the model of JavaScript's trim. -/
def isWS (c : Char) : Bool := c = ' ' || c = '\t' || c = '\n' || c = '\r'

/-- Model of JavaScript `String.prototype.trim` on the underlying character
list: drop whitespace from the front, then from the back. -/
def trimChars (l : List Char) : List Char :=
  ((l.dropWhile isWS).reverse.dropWhile isWS).reverse

/-- Model of JavaScript `s.trim()`. -/
def strTrim (s : String) : String := String.mk (trimChars s.data)

/-- JavaScript values as they appear in parsed JSON request bodies.  A field
absent from the body destructures to `undef`; `obj` stands for any (truthy)
object value whose structure the handler never inspects. -/
inductive JSVal where
  | undef
  | null
  | bool (b : Bool)
  | num (n : Int)
  | str (s : String)
  | obj
deriving DecidableEq

/-- JavaScript truthiness, as used by `if (x)` and `x ? a : b`. -/
def truthy : JSVal → Bool
  | .undef => false
  | .null => false
  | .bool b => b
  | .num n => decide (n ≠ 0)
  | .str s => decide (s ≠ "")
  | .obj => true

/-- `v.trim()`: returns the trimmed string when `v` is a string and signals a
TypeError (modelled as `none`) otherwise. -/
def jsTrim : JSVal → Option String
  | .str s => some (strTrim s)
  | _ => none

/-- Result of `new Date(v)`.  The handler never inspects the parsed timestamp,
so the model keeps the argument the date was parsed from. -/
structure JSDate where
  arg : JSVal
deriving DecidableEq

/-- A persisted Task document.  Store-managed timestamps are omitted: no
handler reads or writes them.  `priority` and `completed` keep the JavaScript
value the handler assigned (the spec says update sets them verbatim). -/
structure Task where
  id : String
  user : String
  title : String
  description : Option String
  dueDate : Option JSDate
  priority : JSVal
  completed : JSVal
deriving DecidableEq

/-- The Task Store state: the list of persisted Task documents. -/
abbrev Store := List Task

/-- A parsed JSON request body, one field per key the handlers or the claims
mention.  An absent key is `JSVal.undef`, exactly as JavaScript destructuring
yields.  `user` and `owner` are owner-like keys a caller may send; no handler
ever destructures them. -/
structure Body where
  title : JSVal
  description : JSVal
  dueDate : JSVal
  priority : JSVal
  completed : JSVal
  user : JSVal
  owner : JSVal
deriving DecidableEq

/-- The query string of the list route; every key is an optional string. -/
structure Query where
  priority : Option String
  completed : Option String
  sortBy : Option String
  order : Option String
deriving DecidableEq

/-- The JSON replies the routes produce: an HTTP status, the `success` flag,
an optional `message` and an optional Task payload; `thrown` is a raised
error forwarded by `next(error)` to the external error formatter. -/
inductive Outcome where
  | reply (status : Nat) (success : Bool) (message : Option String) (data : Option Task)
  | thrown
deriving DecidableEq

/-- The 404 reply every single-task route sends when the ownership-scoped
lookup misses: `res.status(404).json({success: false, message: 'Task not found'})`. -/
def notFoundReply : Outcome := .reply 404 false (some "Task not found") none

/-- The ownership-scoped lookup condition `{ _id: req.params.id, user: req.user.id }`. -/
def byIdAndUser (tid callerId : String) (u : Task) : Bool :=
  decide (u.id = tid ∧ u.user = callerId)

/-- Modelled from the spec: the Task schema (`../models/Task`) is not under
`src/`; per the spec's data model, `title` is a required non-empty (after
trimming) string, so the store's save rejects a document whose title trims to
the empty string. -/
def saveAllowed (t : Task) : Bool := !(strTrim t.title == "")

/-- Persisting a mutated document: the store replaces the document with the
same identifier. -/
def replaceTask (t : Task) (store : Store) : Store :=
  List.map (fun u => if u.id = t.id then t else u) store

/-- `task.save()` on an existing document: schema validation, then replace. -/
def saveExisting (t : Task) (store : Store) : Option Store :=
  if saveAllowed t then some (replaceTask t store) else none

/-- `new Task(taskData); task.save()`: schema validation, then insert. -/
def saveNew (t : Task) (store : Store) : Option Store :=
  if saveAllowed t then some (t :: store) else none

/-- Modelled from the spec: the Task schema's default priority.  The schema
file is absent from `src/`; the spec says only "default defined by store
schema", so the concrete value is arbitrary and no claim depends on it. -/
def defaultPriority : JSVal := JSVal.str "medium"

/-- GET `/:id`: ownership-scoped lookup, 404 on miss, else the Task. -/
def getTask (callerId tid : String) (store : Store) : Outcome :=
  match List.find? (byIdAndUser tid callerId) store with
  | none => notFoundReply
  | some task => .reply 200 true none (some task)

/-- The `taskData` object POST `/` builds: owner taken from the resolved
identity, `dueDate` and `priority` only set when truthy, `completed` left to
its schema default `false`. -/
def buildTask (callerId title : String) (desc : Option String) (body : Body)
    (newId : String) : Task :=
  { id := newId
    user := callerId
    title := title
    description := desc
    dueDate := if truthy body.dueDate then some ⟨body.dueDate⟩ else none
    priority := if truthy body.priority then body.priority else defaultPriority
    completed := JSVal.bool false }

/-- The tail of POST `/`: build `taskData` (description already validated),
save, reply 201. -/
def createFinish (callerId title : String) (desc : Option String) (body : Body)
    (store : Store) (newId : String) : Outcome × Store :=
  match saveNew (buildTask callerId title desc body newId) store with
  | some store2 =>
    (.reply 201 true (some "Task created successfully")
      (some (buildTask callerId title desc body newId)), store2)
  | none => (.thrown, store)

/-- POST `/`: `if (!title || title.trim() === '')` replies 400; a truthy
non-string title makes `title.trim()` throw; a truthy description is trimmed
(throwing when not a string); then the document is built and saved. -/
def createTask (callerId : String) (body : Body) (store : Store) (newId : String) :
    Outcome × Store :=
  if truthy body.title = false then
    (.reply 400 false (some "Task title is required") none, store)
  else
    match jsTrim body.title with
    | none => (.thrown, store)
    | some t =>
      if t = "" then
        (.reply 400 false (some "Task title is required") none, store)
      else
        if truthy body.description then
          match jsTrim body.description with
          | none => (.thrown, store)
          | some d => createFinish callerId t (some d) body store newId
        else
          createFinish callerId t none body store newId

/-- `if (title !== undefined) task.title = title.trim();` — `none` models the
TypeError `trim` raises on a present non-string title. -/
def updTitle (body : Body) (task : Task) : Option Task :=
  if body.title = JSVal.undef then some task
  else match jsTrim body.title with
    | none => none
    | some s => some { task with title := s }

/-- `if (description !== undefined) task.description = description.trim();` -/
def updDescription (body : Body) (task : Task) : Option Task :=
  if body.description = JSVal.undef then some task
  else match jsTrim body.description with
    | none => none
    | some d => some { task with description := some d }

/-- The three assignments that cannot throw: `dueDate` is parsed when truthy
and cleared to null otherwise, `priority` and `completed` are set verbatim
when not `undefined`. -/
def updRest (body : Body) (t2 : Task) : Task :=
  let t3 := if body.dueDate = JSVal.undef then t2
    else { t2 with dueDate := if truthy body.dueDate then some ⟨body.dueDate⟩ else none }
  let t4 := if body.priority = JSVal.undef then t3
    else { t3 with priority := body.priority }
  if body.completed = JSVal.undef then t4
  else { t4 with completed := body.completed }

/-- PUT `/:id`: ownership-scoped lookup (404 on miss), then each field that is
not `undefined` overwrites the document field in source order (title,
description, dueDate, priority, completed), then save. -/
def updateTask (callerId tid : String) (body : Body) (store : Store) :
    Outcome × Store :=
  match List.find? (byIdAndUser tid callerId) store with
  | none => (notFoundReply, store)
  | some task =>
    match updTitle body task with
    | none => (.thrown, store)
    | some t1 =>
      match updDescription body t1 with
      | none => (.thrown, store)
      | some t2 =>
        match saveExisting (updRest body t2) store with
        | none => (.thrown, store)
        | some store2 =>
          (.reply 200 true (some "Task updated successfully") (some (updRest body t2)), store2)

/-- DELETE `/:id`: `findOneAndDelete` scoped by id and owner; 404 when no
match, else the match is removed and the reply carries no data payload. -/
def deleteTask (callerId tid : String) (store : Store) : Outcome × Store :=
  match List.find? (byIdAndUser tid callerId) store with
  | none => (notFoundReply, store)
  | some _ =>
    (.reply 200 true (some "Task deleted successfully") none,
     List.eraseP (byIdAndUser tid callerId) store)

/-- `task.completed = !task.completed;` — JavaScript negation of whatever
value is stored. -/
def toggledTask (task : Task) : Task :=
  { task with completed := JSVal.bool (!truthy task.completed) }

/-- PATCH `/:id/toggle`: ownership-scoped lookup (404 on miss), flip
`completed` through JavaScript negation, save, and report the new state. -/
def toggleTask (callerId tid : String) (store : Store) : Outcome × Store :=
  match List.find? (byIdAndUser tid callerId) store with
  | none => (notFoundReply, store)
  | some task =>
    match saveExisting (toggledTask task) store with
    | none => (.thrown, store)
    | some store2 =>
      (.reply 200 true
        (some ("Task marked as "
          ++ (if truthy (toggledTask task).completed then "completed" else "incomplete")))
        (some (toggledTask task)), store2)

/-- The list route's reply: `{success: true, count: tasks.length, data: tasks}`. -/
structure ListReply where
  success : Bool
  count : Nat
  data : List Task
deriving DecidableEq

/-- GET `/`: the filter starts at `{user: callerId}`; `priority` is added when
present, truthy and not `"all"`; `completed` is added when present and not
`"all"`, coerced by `completed === 'true'`.  Sorting is performed by the
external store and never changes membership, so the model returns the
matching documents in store order. -/
def listTasks (callerId : String) (q : Query) (store : Store) : ListReply :=
  let priorityFilter : Option String :=
    match q.priority with
    | some p => if p ≠ "" ∧ p ≠ "all" then some p else none
    | none => none
  let completedFilter : Option Bool :=
    match q.completed with
    | some s => if s ≠ "all" then some (decide (s = "true")) else none
    | none => none
  let tasks := List.filter (fun t =>
    decide (t.user = callerId) &&
    (match priorityFilter with
     | some p => decide (t.priority = JSVal.str p)
     | none => true) &&
    (match completedFilter with
     | some b => decide (t.completed = JSVal.bool b)
     | none => true)) store
  { success := true, count := tasks.length, data := tasks }

/-- The store invariant the spec states for titles: every persisted Task's
title is non-empty after trimming (so neither empty nor whitespace-only). -/
@[reducible] def TitleInv (store : Store) : Prop :=
  ∀ t ∈ store, strTrim t.title ≠ ""

lemma dropWhile_dropWhile (p : Char → Bool) (l : List Char) :
    (l.dropWhile p).dropWhile p = l.dropWhile p := by
  induction l with
  | nil => rfl
  | cons a l ih =>
    by_cases h : p a
    · simpa [List.dropWhile_cons, h] using ih
    · simp [List.dropWhile_cons, h]

lemma head?_dropWhile (p : Char → Bool) (l : List Char) (c : Char)
    (h : (l.dropWhile p).head? = some c) : p c = false := by
  induction l with
  | nil => simp [List.dropWhile] at h
  | cons a l ih =>
    by_cases ha : p a
    · rw [show (a :: l).dropWhile p = l.dropWhile p by simp [List.dropWhile_cons, ha]] at h
      exact ih h
    · rw [show (a :: l).dropWhile p = a :: l by simp [List.dropWhile_cons, ha]] at h
      simp only [List.head?_cons, Option.some.injEq] at h
      subst h
      simpa using ha

lemma dropWhile_eq_self_of_head (p : Char → Bool) (l : List Char)
    (h : ∀ c, l.head? = some c → p c = false) : l.dropWhile p = l := by
  cases l with
  | nil => rfl
  | cons a l => simp [List.dropWhile_cons, h a rfl]

lemma trimChars_idem (l : List Char) : trimChars (trimChars l) = trimChars l := by
  unfold trimChars
  set d := l.dropWhile isWS with hd
  set e := d.reverse.dropWhile isWS with he
  have h1 : e.reverse.dropWhile isWS = e.reverse := by
    apply dropWhile_eq_self_of_head
    intro c hc
    rw [List.head?_reverse] at hc
    have hne : e ≠ [] := by
      intro h0
      rw [h0] at hc
      simp at hc
    have hsplit : d.reverse.takeWhile isWS ++ e = d.reverse := by
      rw [he]
      exact List.takeWhile_append_dropWhile isWS d.reverse
    have hlast : d.reverse.getLast? = e.getLast? := by
      rw [← hsplit]
      exact List.getLast?_append_of_ne_nil _ hne
    rw [List.getLast?_reverse, hc, hd] at hlast
    exact head?_dropWhile isWS l c hlast
  rw [h1, List.reverse_reverse, he, dropWhile_dropWhile]

lemma strTrim_idem (s : String) : strTrim (strTrim s) = strTrim s := by
  unfold strTrim
  exact congrArg String.mk (trimChars_idem s.data)

lemma find?_none_of_no_match (tid c : String) (store : List Task)
    (h : ∀ u ∈ store, ¬(u.id = tid ∧ u.user = c)) :
    store.find? (byIdAndUser tid c) = none :=
  List.find?_eq_none.mpr (fun u hu => by simpa [byIdAndUser] using h u hu)

/-- In a store with pairwise-distinct identifiers, the ownership-scoped lookup
finds exactly the member with the looked-up identifier, erasing by the same
condition removes it, and nothing left matches the condition afterwards. -/
lemma store_core (p : Task → Bool) (store : List Task) (task : Task)
    (hnd : (store.map Task.id).Nodup) (hmem : task ∈ store) (hp : p task = true)
    (hq : ∀ u, p u = true → u.id = task.id) :
    store.find? p = some task ∧ task ∉ store.eraseP p ∧
      ∀ u ∈ store.eraseP p, p u = false := by
  induction store with
  | nil => cases hmem
  | cons a l ih =>
    rw [List.map_cons, List.nodup_cons] at hnd
    obtain ⟨hna, hndl⟩ := hnd
    by_cases hpa : p a = true
    · have hta : task = a := by
        rcases List.mem_cons.mp hmem with rfl | hml
        · rfl
        · exact absurd (hq a hpa ▸ List.mem_map_of_mem Task.id hml) hna
      subst hta
      refine ⟨List.find?_cons_of_pos _ hpa, ?_, ?_⟩
      · rw [List.eraseP_cons_of_pos hpa]
        intro hmem2
        exact hna (List.mem_map_of_mem Task.id hmem2)
      · rw [List.eraseP_cons_of_pos hpa]
        intro u hu
        by_contra hpu
        rw [Bool.not_eq_false] at hpu
        exact hna (hq u hpu ▸ List.mem_map_of_mem Task.id hu)
    · have hml : task ∈ l := by
        rcases List.mem_cons.mp hmem with rfl | hml
        · exact absurd hp hpa
        · exact hml
      obtain ⟨h1, h2, h3⟩ := ih hndl hml
      refine ⟨?_, ?_, ?_⟩
      · rw [List.find?_cons_of_neg _ hpa]
        exact h1
      · rw [List.eraseP_cons_of_neg hpa]
        intro hmem2
        rcases List.mem_cons.mp hmem2 with rfl | h
        · exact hpa hp
        · exact h2 h
      · rw [List.eraseP_cons_of_neg hpa]
        intro u hu
        rcases List.mem_cons.mp hu with rfl | h
        · simpa using hpa
        · exact h3 u h

lemma mem_replaceTask (t2 u : Task) (store : List Task)
    (hu : u ∈ replaceTask t2 store) : u = t2 ∨ u ∈ store := by
  unfold replaceTask at hu
  rcases List.mem_map.mp hu with ⟨v, hv, hveq⟩
  by_cases h : v.id = t2.id
  · left
    rw [← hveq]
    simp [h]
  · right
    rw [← hveq]
    simpa [h] using hv

lemma find?_replaceTask (tid c : String) (store : List Task) (task t2 : Task)
    (hnd : (store.map Task.id).Nodup) (hmem : task ∈ store)
    (hid : task.id = tid) (huser : t2.user = c)
    (h2id : t2.id = task.id) :
    (replaceTask t2 store).find? (byIdAndUser tid c) = some t2 := by
  induction store with
  | nil => cases hmem
  | cons a l ih =>
    rw [List.map_cons, List.nodup_cons] at hnd
    obtain ⟨hna, hndl⟩ := hnd
    by_cases ha : a.id = t2.id
    · have : replaceTask t2 (a :: l) = t2 :: replaceTask t2 l := by
        simp [replaceTask, ha]
      rw [this]
      apply List.find?_cons_of_pos
      simp [byIdAndUser, h2id ▸ hid, huser]
    · have hstep : replaceTask t2 (a :: l) = a :: replaceTask t2 l := by
        simp [replaceTask, ha]
      have htl : task ∈ l := by
        rcases List.mem_cons.mp hmem with rfl | hml
        · exact absurd (h2id.symm) ha
        · exact hml
      rw [hstep]
      rw [List.find?_cons_of_neg, ih hndl htl]
      simp only [byIdAndUser, decide_eq_true_eq]
      intro hcon
      exact ha (h2id ▸ hid ▸ hcon.1)

lemma replaceTask_cancel (store : List Task) (task t2 : Task)
    (huniq : ∀ u ∈ store, u.id = task.id → u = task)
    (h2 : t2.id = task.id) :
    replaceTask task (replaceTask t2 store) = store := by
  induction store with
  | nil => rfl
  | cons a l ih =>
    have ihl : replaceTask task (replaceTask t2 l) = l :=
      ih (fun u hu h => huniq u (List.mem_cons_of_mem a hu) h)
    by_cases ha : a.id = t2.id
    · have haeq : a = task := huniq a (List.mem_cons_self a l) (ha.trans h2)
      rw [show replaceTask t2 (a :: l) = t2 :: replaceTask t2 l by
        simp [replaceTask, ha]]
      rw [show replaceTask task (t2 :: replaceTask t2 l)
            = task :: replaceTask task (replaceTask t2 l) by
        simp [replaceTask, h2]]
      rw [ihl, haeq]
    · have ha2 : ¬ a.id = task.id := fun h => ha (h.trans h2.symm)
      rw [show replaceTask t2 (a :: l) = a :: replaceTask t2 l by
        simp [replaceTask, ha]]
      rw [show replaceTask task (a :: replaceTask t2 l)
            = a :: replaceTask task (replaceTask t2 l) by
        simp [replaceTask, ha2]]
      rw [ihl]

lemma jsTrim_some (v : JSVal) (t : String) (h : jsTrim v = some t) :
    strTrim t = t := by
  cases v <;> simp [jsTrim] at h
  case str s => rw [← h]; exact strTrim_idem s

lemma createFinish_eq (c t : String) (d : Option String) (body : Body)
    (store : Store) (i : String) (hv : strTrim t ≠ "") :
    createFinish c t d body store i
      = (Outcome.reply 201 true (some "Task created successfully")
          (some (buildTask c t d body i)), buildTask c t d body i :: store) := by
  unfold createFinish saveNew
  have hsa : saveAllowed (buildTask c t d body i) = true := by
    simp [saveAllowed, buildTask, hv]
  rw [hsa]
  simp

lemma titleInv_replace (t : Task) (store : Store) (h : TitleInv store)
    (ht : strTrim t.title ≠ "") : TitleInv (replaceTask t store) := by
  intro u hu
  rcases mem_replaceTask t u store hu with rfl | hu2
  · exact ht
  · exact h u hu2

lemma all_notFound (c tid : String) (body : Body) (store : Store)
    (hfind : List.find? (byIdAndUser tid c) store = none) :
    getTask c tid store = notFoundReply
    ∧ updateTask c tid body store = (notFoundReply, store)
    ∧ deleteTask c tid store = (notFoundReply, store)
    ∧ toggleTask c tid store = (notFoundReply, store) := by
  refine ⟨?_, ?_, ?_, ?_⟩ <;>
    simp [getTask, updateTask, deleteTask, toggleTask, hfind]

lemma createFinish_store_shape (c t : String) (d : Option String) (body : Body)
    (store : Store) (i : String) :
    (createFinish c t d body store i).2 = store
    ∨ ∃ tk, saveAllowed tk = true
        ∧ (createFinish c t d body store i).2 = tk :: store := by
  unfold createFinish saveNew
  by_cases hsa : saveAllowed (buildTask c t d body i) = true
  · rw [if_pos hsa]
    right
    exact ⟨_, hsa, rfl⟩
  · rw [if_neg hsa]
    left
    rfl

lemma createTask_store_shape (c newId : String) (body : Body) (store : Store) :
    (createTask c body store newId).2 = store
    ∨ ∃ tk, saveAllowed tk = true
        ∧ (createTask c body store newId).2 = tk :: store := by
  unfold createTask
  split
  · left; rfl
  · split
    · left; rfl
    · split
      · left; rfl
      · split
        · split
          · left; rfl
          · exact createFinish_store_shape ..
        · exact createFinish_store_shape ..

lemma updateTask_store_shape (c tid : String) (body : Body) (store : Store) :
    (updateTask c tid body store).2 = store
    ∨ ∃ tk, saveAllowed tk = true
        ∧ (updateTask c tid body store).2 = replaceTask tk store := by
  unfold updateTask
  split
  · left; rfl
  · split
    · left; rfl
    · split
      · left; rfl
      · split
        next heq =>
          unfold saveExisting at heq
          split at heq
          · cases heq
          · left; rfl
        next store2 heq =>
          unfold saveExisting at heq
          split at heq
          next hsa =>
            right
            exact ⟨_, hsa, (Option.some.inj heq).symm⟩
          next => cases heq

lemma toggleTask_store_shape (c tid : String) (store : Store) :
    (toggleTask c tid store).2 = store
    ∨ ∃ tk, saveAllowed tk = true
        ∧ (toggleTask c tid store).2 = replaceTask tk store := by
  unfold toggleTask
  split
  · left; rfl
  · split
    next heq =>
      unfold saveExisting at heq
      split at heq
      · cases heq
      · left; rfl
    next store2 heq =>
      unfold saveExisting at heq
      split at heq
      next hsa =>
        right
        exact ⟨_, hsa, (Option.some.inj heq).symm⟩
      next => cases heq

/-- Sample documents and bodies used to instantiate the theorems below on
concrete inputs. -/
def sampleTask : Task :=
  ⟨"t1", "alice", "Buy milk", some "d", none, JSVal.str "low", JSVal.bool false⟩

def bobTask : Task :=
  ⟨"t1", "bob", "Walk dog", none, none, JSVal.str "high", JSVal.bool false⟩

def bodyMilk : Body :=
  ⟨.str "Buy milk", .undef, .undef, .undef, .undef, .str "mallory", .str "mallory"⟩

/-- C1: for every caller `c` and task id `t`, when a Task with id `t` exists
but is owned by someone else, get, update, delete and toggleCompletion all
reply 404 `success = false` `"Task not found"` with the store unchanged —
exactly the outcome they produce on a store holding no Task with id `t`. -/
theorem claim1_ownership_isolation (c tid : String) (store : Store)
    (task : Task) (body : Body)
    (hnd : (List.map Task.id store).Nodup) (hmem : task ∈ store)
    (hid : task.id = tid) (howner : task.user ≠ c) :
    (getTask c tid store = notFoundReply
      ∧ updateTask c tid body store = (notFoundReply, store)
      ∧ deleteTask c tid store = (notFoundReply, store)
      ∧ toggleTask c tid store = (notFoundReply, store))
    ∧ (getTask c tid (List.filter (fun u => decide (u.id ≠ tid)) store)
        = notFoundReply
      ∧ updateTask c tid body (List.filter (fun u => decide (u.id ≠ tid)) store)
        = (notFoundReply, List.filter (fun u => decide (u.id ≠ tid)) store)
      ∧ deleteTask c tid (List.filter (fun u => decide (u.id ≠ tid)) store)
        = (notFoundReply, List.filter (fun u => decide (u.id ≠ tid)) store)
      ∧ toggleTask c tid (List.filter (fun u => decide (u.id ≠ tid)) store)
        = (notFoundReply, List.filter (fun u => decide (u.id ≠ tid)) store)) := by
  have huniq := List.inj_on_of_nodup_map hnd
  have hnone : ∀ u ∈ store, ¬(u.id = tid ∧ u.user = c) := by
    rintro u hu ⟨h1, h2⟩
    have heq : u = task := huniq hu hmem (by rw [h1, hid])
    exact howner (heq ▸ h2)
  have hnone2 :
      ∀ u ∈ List.filter (fun u => decide (u.id ≠ tid)) store,
        ¬(u.id = tid ∧ u.user = c) := by
    rintro u hu ⟨h1, _⟩
    have hne := (List.mem_filter.mp hu).2
    simp only [decide_eq_true_eq] at hne
    exact hne h1
  exact ⟨all_notFound c tid body store (find?_none_of_no_match _ _ _ hnone),
         all_notFound c tid body _ (find?_none_of_no_match _ _ _ hnone2)⟩

/-- C1 witness: a store holding only Bob's task `t1`; caller Alice gets 404
from all four operations, on that store and on the id-purged store. -/
theorem claim1_witness :
    ((List.map Task.id [bobTask]).Nodup ∧ bobTask ∈ [bobTask]
      ∧ bobTask.id = "t1" ∧ bobTask.user ≠ "alice")
    ∧ ((getTask "alice" "t1" [bobTask] = notFoundReply
      ∧ updateTask "alice" "t1" bodyMilk [bobTask] = (notFoundReply, [bobTask])
      ∧ deleteTask "alice" "t1" [bobTask] = (notFoundReply, [bobTask])
      ∧ toggleTask "alice" "t1" [bobTask] = (notFoundReply, [bobTask]))
    ∧ (getTask "alice" "t1" (List.filter (fun u => decide (u.id ≠ "t1")) [bobTask])
        = notFoundReply
      ∧ updateTask "alice" "t1" bodyMilk
          (List.filter (fun u => decide (u.id ≠ "t1")) [bobTask])
        = (notFoundReply, List.filter (fun u => decide (u.id ≠ "t1")) [bobTask])
      ∧ deleteTask "alice" "t1" (List.filter (fun u => decide (u.id ≠ "t1")) [bobTask])
        = (notFoundReply, List.filter (fun u => decide (u.id ≠ "t1")) [bobTask])
      ∧ toggleTask "alice" "t1" (List.filter (fun u => decide (u.id ≠ "t1")) [bobTask])
        = (notFoundReply, List.filter (fun u => decide (u.id ≠ "t1")) [bobTask]))) :=
  ⟨by decide,
   claim1_ownership_isolation "alice" "t1" [bobTask] bobTask bodyMilk
     (by decide) (by decide) (by decide) (by decide)⟩

/-- C2: whatever the caller sends in the body — including owner-like `user`
and `owner` fields — a successful create returns a Task whose owner is the
resolved caller identity, and that Task is persisted. -/
theorem claim2_create_sets_owner (c : String) (body : Body) (store : Store)
    (newId : String) (task : Task)
    (h : (createTask c body store newId).1
      = Outcome.reply 201 true (some "Task created successfully") (some task)) :
    task.user = c ∧ task ∈ (createTask c body store newId).2 := by
  by_cases hT : truthy body.title = false
  · simp [createTask, hT] at h
  · rw [Bool.not_eq_false] at hT
    cases hj : jsTrim body.title with
    | none => simp [createTask, hT, hj] at h
    | some t =>
      by_cases hte : t = ""
      · simp [createTask, hT, hj, hte] at h
      · have hv : strTrim t ≠ "" := by
          rw [jsTrim_some body.title t hj]
          exact hte
        by_cases hd : truthy body.description = true
        · cases hjd : jsTrim body.description with
          | none => simp [createTask, hT, hj, hte, hd, hjd] at h
          | some d =>
            have hceq : createTask c body store newId
                = createFinish c t (some d) body store newId := by
              simp [createTask, hT, hj, hte, hd, hjd]
            rw [hceq, createFinish_eq c t (some d) body store newId hv] at h ⊢
            simp only [Prod.fst, Outcome.reply.injEq, Option.some.injEq] at h
            rw [← h.2.2.2]
            exact ⟨rfl, List.mem_cons_self _ _⟩
        · have hceq : createTask c body store newId
              = createFinish c t none body store newId := by
            simp [createTask, hT, hj, hte, hd]
          rw [hceq, createFinish_eq c t none body store newId hv] at h ⊢
          simp only [Prod.fst, Outcome.reply.injEq, Option.some.injEq] at h
          rw [← h.2.2.2]
          exact ⟨rfl, List.mem_cons_self _ _⟩

/-- C2 witness: Alice creates a task whose body smuggles `user`/`owner`
fields naming Mallory; the stored owner is still Alice. -/
theorem claim2_witness :
    ((createTask "alice" bodyMilk [] "t1").1
      = Outcome.reply 201 true (some "Task created successfully")
          (some (buildTask "alice" "Buy milk" none bodyMilk "t1")))
    ∧ (buildTask "alice" "Buy milk" none bodyMilk "t1").user = "alice"
    ∧ buildTask "alice" "Buy milk" none bodyMilk "t1"
        ∈ (createTask "alice" bodyMilk [] "t1").2 :=
  ⟨by decide,
   claim2_create_sets_owner "alice" bodyMilk [] "t1"
     (buildTask "alice" "Buy milk" none bodyMilk "t1") (by decide)⟩

/-- C10: a create body whose title is present and truthy but not a string
passes the `!title` presence check and then `title.trim()` raises, so the
handler neither replies 400 nor persists anything: the caught error is
forwarded to the generic error formatter and the store is unchanged. -/
theorem claim10_create_nonstring_title (c newId : String) (body : Body)
    (store : Store) (hT : truthy body.title = true)
    (hns : jsTrim body.title = none) :
    createTask c body store newId = (Outcome.thrown, store) := by
  simp [createTask, hT, hns]

/-- A whitespace-only title, as sent by an update that tries to blank the
title out. -/
def bodyBlank : Body := ⟨.str "   ", .undef, .undef, .undef, .undef, .undef, .undef⟩

/-- C3: every operation of the handler preserves the store invariant that no
persisted title is empty or whitespace-only after trimming; in particular an
update whose title trims to the empty string never leaves an empty title in
the store (the modelled schema validation rejects the save instead). -/
theorem claim3_title_invariant (c tid newId : String) (body : Body)
    (store : Store) (h : TitleInv store) :
    TitleInv (createTask c body store newId).2
    ∧ TitleInv (updateTask c tid body store).2
    ∧ TitleInv (toggleTask c tid store).2 := by
  refine ⟨?_, ?_, ?_⟩
  · rcases createTask_store_shape c newId body store with he | ⟨t, hsa, he⟩
    · rw [he]; exact h
    · rw [he]
      intro u hu
      rcases List.mem_cons.mp hu with rfl | hu2
      · simpa [saveAllowed] using hsa
      · exact h u hu2
  · rcases updateTask_store_shape c tid body store with he | ⟨t, hsa, he⟩
    · rw [he]; exact h
    · rw [he]
      exact titleInv_replace t store h (by simpa [saveAllowed] using hsa)
  · rcases toggleTask_store_shape c tid store with he | ⟨t, hsa, he⟩
    · rw [he]; exact h
    · rw [he]
      exact titleInv_replace t store h (by simpa [saveAllowed] using hsa)

/-- C3 witness: updating Alice's task with a whitespace-only title leaves a
store that still satisfies the title invariant. -/
theorem claim3_witness :
    TitleInv [sampleTask]
    ∧ TitleInv (updateTask "alice" "t1" bodyBlank [sampleTask]).2 :=
  ⟨by decide,
   (claim3_title_invariant "alice" "t1" "t9" bodyBlank [sampleTask] (by decide)).2.1⟩

/-- The condition under which POST `/` actually takes its 400 branch: the
title is falsy (absent, null, false, 0 or the empty string) or a string that
trims to the empty string. -/
def titleRejected (v : JSVal) : Bool :=
  !truthy v ||
    (match v with
     | .str s => decide (strTrim s = "")
     | _ => false)

/-- Stated from claim C4's words, for comparison with the code: the title is
absent from the body, or it is a string that trims to the empty string. -/
def specTitleMissingOrBlank (v : JSVal) : Bool :=
  match v with
  | .undef => true
  | .str s => decide (strTrim s = "")
  | _ => false

/-- A body whose title key is present but explicitly null. -/
def bodyNullTitle : Body := ⟨.null, .undef, .undef, .undef, .undef, .undef, .undef⟩

/-- C4 counterexample: with `title: null` the handler replies 400
(ValidationError), yet the title is neither absent nor a string trimming to
empty — the claimed "if and only if" fails on this input. -/
theorem claim4_counterexample :
    (createTask "alice" bodyNullTitle [] "t1").1
      = Outcome.reply 400 false (some "Task title is required") none
    ∧ specTitleMissingOrBlank bodyNullTitle.title = false := by decide

/-- C4 amended: create replies 400 ValidationError iff the title is falsy
(absent, null, false, 0 or empty string) or a string trimming to empty; any
failing create (400 or a raised error) leaves the store unchanged, and any
non-failing create replies 201 with the created Task persisted. -/
theorem claim4_create_validation (c newId : String) (body : Body)
    (store : Store) :
    (titleRejected body.title = true
      ∧ createTask c body store newId
        = (Outcome.reply 400 false (some "Task title is required") none, store))
    ∨ (titleRejected body.title = false
      ∧ createTask c body store newId = (Outcome.thrown, store))
    ∨ (titleRejected body.title = false
      ∧ ∃ t : Task, createTask c body store newId
          = (Outcome.reply 201 true (some "Task created successfully") (some t),
             t :: store)) := by
  cases hbt : body.title with
  | undef =>
    left
    exact ⟨by simp [titleRejected, hbt, truthy], by simp [createTask, hbt, truthy]⟩
  | null =>
    left
    exact ⟨by simp [titleRejected, hbt, truthy], by simp [createTask, hbt, truthy]⟩
  | bool b =>
    cases b with
    | false =>
      left
      exact ⟨by simp [titleRejected, hbt, truthy], by simp [createTask, hbt, truthy]⟩
    | true =>
      right; left
      exact ⟨by simp [titleRejected, hbt, truthy],
             by simp [createTask, hbt, truthy, jsTrim]⟩
  | num n =>
    by_cases hn : n = 0
    · left
      exact ⟨by simp [titleRejected, hbt, truthy, hn],
             by simp [createTask, hbt, truthy, hn]⟩
    · right; left
      exact ⟨by simp [titleRejected, hbt, truthy, hn],
             by simp [createTask, hbt, truthy, hn, jsTrim]⟩
  | obj =>
    right; left
    exact ⟨by simp [titleRejected, hbt, truthy],
           by simp [createTask, hbt, truthy, jsTrim]⟩
  | str s =>
    by_cases hs0 : s = ""
    · left
      exact ⟨by simp [titleRejected, hbt, truthy, hs0],
             by simp [createTask, hbt, truthy, hs0]⟩
    · by_cases hse : strTrim s = ""
      · left
        exact ⟨by simp [titleRejected, hbt, truthy, hs0, hse],
               by simp [createTask, hbt, truthy, jsTrim, hs0, hse]⟩
      · have hv : strTrim (strTrim s) ≠ "" := by
          rw [strTrim_idem]
          exact hse
        have htr : titleRejected (JSVal.str s) = false := by
          simp [titleRejected, truthy, hs0, hse]
        have hT : truthy (JSVal.str s) = true := by simp [truthy, hs0]
        have hjs : jsTrim (JSVal.str s) = some (strTrim s) := rfl
        by_cases hd : truthy body.description = true
        · cases hjd : jsTrim body.description with
          | none =>
            right; left
            refine ⟨htr, ?_⟩
            simp [createTask, hbt, hT, hjs, hse, hd, hjd]
          | some d =>
            right; right
            refine ⟨htr, buildTask c (strTrim s) (some d) body newId, ?_⟩
            have hceq : createTask c body store newId
                = createFinish c (strTrim s) (some d) body store newId := by
              simp [createTask, hbt, hT, hjs, hse, hd, hjd]
            rw [hceq, createFinish_eq c (strTrim s) (some d) body store newId hv]
        · right; right
          refine ⟨htr, buildTask c (strTrim s) none body newId, ?_⟩
          have hceq : createTask c body store newId
              = createFinish c (strTrim s) none body store newId := by
            simp [createTask, hbt, hT, hjs, hse, hd]
          rw [hceq, createFinish_eq c (strTrim s) none body store newId hv]

/-- C10 witness: a numeric title (`5`) is truthy yet has no trim, so create
throws and the store stays empty. -/
theorem claim10_witness :
    (truthy (JSVal.num 5) = true ∧ jsTrim (JSVal.num 5) = none)
    ∧ createTask "alice" ⟨.num 5, .undef, .undef, .undef, .undef, .undef, .undef⟩ [] "t1"
        = (Outcome.thrown, []) :=
  ⟨by decide,
   claim10_create_nonstring_title "alice" "t1"
     ⟨.num 5, .undef, .undef, .undef, .undef, .undef, .undef⟩ [] (by decide) (by decide)⟩

/-- C9: deleting an existing owned Task replies success with no data payload
and removes it; repeating the delete on the now-absent id replies NotFound
and leaves the store untouched — no crash, no second removal. -/
theorem claim9_delete_idempotent (c tid : String) (store : Store) (task : Task)
    (hnd : (List.map Task.id store).Nodup) (hmem : task ∈ store)
    (hid : task.id = tid) (huser : task.user = c) :
    (deleteTask c tid store).1
      = Outcome.reply 200 true (some "Task deleted successfully") none
    ∧ task ∉ (deleteTask c tid store).2
    ∧ deleteTask c tid (deleteTask c tid store).2
        = (notFoundReply, (deleteTask c tid store).2) := by
  have hp : byIdAndUser tid c task = true := by
    simp [byIdAndUser, hid, huser]
  have hq : ∀ u, byIdAndUser tid c u = true → u.id = task.id := by
    intro u hu
    simp only [byIdAndUser, decide_eq_true_eq] at hu
    rw [hu.1, hid]
  obtain ⟨hfind, hnotmem, hnone⟩ := store_core _ store task hnd hmem hp hq
  have hdel : deleteTask c tid store
      = (Outcome.reply 200 true (some "Task deleted successfully") none,
         List.eraseP (byIdAndUser tid c) store) := by
    simp [deleteTask, hfind]
  have hfind2 : List.find? (byIdAndUser tid c)
      (List.eraseP (byIdAndUser tid c) store) = none :=
    List.find?_eq_none.mpr (fun u hu => by simp [hnone u hu])
  refine ⟨by rw [hdel], ?_, ?_⟩
  · rw [hdel]
    exact hnotmem
  · rw [hdel]
    simp [deleteTask, hfind2]

/-- C9 witness: Alice deletes her task `t1`; the second delete on the emptied
store replies 404 and changes nothing. -/
theorem claim9_witness :
    ((List.map Task.id [sampleTask]).Nodup ∧ sampleTask ∈ [sampleTask]
      ∧ sampleTask.id = "t1" ∧ sampleTask.user = "alice")
    ∧ ((deleteTask "alice" "t1" [sampleTask]).1
        = Outcome.reply 200 true (some "Task deleted successfully") none
      ∧ sampleTask ∉ (deleteTask "alice" "t1" [sampleTask]).2
      ∧ deleteTask "alice" "t1" (deleteTask "alice" "t1" [sampleTask]).2
          = (notFoundReply, (deleteTask "alice" "t1" [sampleTask]).2)) :=
  ⟨by decide,
   claim9_delete_idempotent "alice" "t1" [sampleTask] sampleTask
     (by decide) (by decide) (by decide) (by decide)⟩

/-- A completed task of Alice's, used to instantiate the list theorems. -/
def doneTask : Task :=
  ⟨"t3", "alice", "Done", none, none, JSVal.str "low", JSVal.bool true⟩

/-- A high-priority task, used to refute C7's empty-string case. -/
def taskHigh : Task :=
  ⟨"t2", "uma", "Paint", none, none, JSVal.str "high", JSVal.bool false⟩

/-- C6: list membership is exactly ownership plus the completed filter — the
filter is absent when `completed` is omitted or `"all"`, and otherwise keeps
the Tasks whose completed flag equals the coercion `completed === 'true'`. -/
theorem claim6_list_completed_filter (c : String) (q : Query) (store : Store)
    (t : Task) (hp : q.priority = none) :
    t ∈ (listTasks c q store).data
      ↔ t ∈ store ∧ t.user = c ∧
          (match q.completed with
           | none => True
           | some s =>
             if s = "all" then True
             else t.completed = JSVal.bool (decide (s = "true"))) := by
  cases hc : q.completed with
  | none => simp [listTasks, hp, hc, List.mem_filter]
  | some s =>
    by_cases hall : s = "all"
    · simp [listTasks, hp, hc, hall, List.mem_filter]
    · simp [listTasks, hp, hc, hall, List.mem_filter, and_assoc]

/-- C6 witness: with `completed=true` Alice's completed task is listed — the
membership characterization instantiated on a concrete store. -/
theorem claim6_witness :
    (⟨none, some "true", none, none⟩ : Query).priority = none
    ∧ (doneTask ∈ (listTasks "alice" ⟨none, some "true", none, none⟩
          [doneTask, sampleTask]).data
        ↔ doneTask ∈ [doneTask, sampleTask] ∧ doneTask.user = "alice" ∧
            (match (⟨none, some "true", none, none⟩ : Query).completed with
             | none => True
             | some s =>
               if s = "all" then True
               else doneTask.completed = JSVal.bool (decide (s = "true")))) :=
  ⟨rfl,
   claim6_list_completed_filter "alice" ⟨none, some "true", none, none⟩
     [doneTask, sampleTask] doneTask rfl⟩

/-- C7 counterexample: with `priority=""` (present, not `"all"`) the claim
says only Tasks of priority `""` are returned, but the handler's truthiness
guard drops the filter and the high-priority task is returned anyway. -/
theorem claim7_counterexample :
    (listTasks "uma" ⟨some "", none, none, none⟩ [taskHigh]).data = [taskHigh]
    ∧ taskHigh.priority ≠ JSVal.str "" := by decide

/-- C7 amended: the priority filter applies exactly when `priority` is
present, non-empty and not `"all"`; an absent, empty or `"all"` priority is
ignored (the guard `priority && priority !== 'all'` treats the empty string
as absent). -/
theorem claim7_list_priority_filter (c : String) (q : Query) (store : Store)
    (t : Task) (hcq : q.completed = none) :
    t ∈ (listTasks c q store).data
      ↔ t ∈ store ∧ t.user = c ∧
          (match q.priority with
           | none => True
           | some p =>
             if p = "" ∨ p = "all" then True
             else t.priority = JSVal.str p) := by
  cases hq : q.priority with
  | none => simp [listTasks, hcq, hq, List.mem_filter]
  | some p =>
    by_cases h1 : p = ""
    · simp [listTasks, hcq, hq, h1, List.mem_filter]
    · by_cases h2 : p = "all"
      · simp [listTasks, hcq, hq, h1, h2, List.mem_filter]
      · simp [listTasks, hcq, hq, h1, h2, List.mem_filter, and_assoc]

/-- C7 witness: with `priority=high` membership reduces to ownership plus a
priority-equality check, instantiated on a concrete store. -/
theorem claim7_witness :
    (⟨some "high", none, none, none⟩ : Query).completed = none
    ∧ (taskHigh ∈ (listTasks "uma" ⟨some "high", none, none, none⟩
          [taskHigh]).data
        ↔ taskHigh ∈ [taskHigh] ∧ taskHigh.user = "uma" ∧
            (match (⟨some "high", none, none, none⟩ : Query).priority with
             | none => True
             | some p =>
               if p = "" ∨ p = "all" then True
               else taskHigh.priority = JSVal.str p)) :=
  ⟨rfl,
   claim7_list_priority_filter "uma" ⟨some "high", none, none, none⟩
     [taskHigh] taskHigh rfl⟩

/-- C8: toggling an existing owned Task flips its completed flag and reports
the new state; toggling again returns the Task — and the whole store — to
exactly the original value, with the message reflecting each new state. -/
theorem claim8_toggle_involution (c tid : String) (store : Store) (task : Task)
    (b : Bool)
    (hnd : (List.map Task.id store).Nodup) (hmem : task ∈ store)
    (hid : task.id = tid) (huser : task.user = c)
    (hb : task.completed = JSVal.bool b) (hvt : strTrim task.title ≠ "") :
    (toggledTask task).completed = JSVal.bool (!b)
    ∧ toggleTask c tid store
      = (Outcome.reply 200 true
          (some ("Task marked as " ++ (if b then "incomplete" else "completed")))
          (some (toggledTask task)),
         replaceTask (toggledTask task) store)
    ∧ toggleTask c tid (replaceTask (toggledTask task) store)
      = (Outcome.reply 200 true
          (some ("Task marked as " ++ (if b then "completed" else "incomplete")))
          (some task), store) := by
  have hp : byIdAndUser tid c task = true := by
    simp [byIdAndUser, hid, huser]
  have hq : ∀ u, byIdAndUser tid c u = true → u.id = task.id := by
    intro u hu
    simp only [byIdAndUser, decide_eq_true_eq] at hu
    rw [hu.1, hid]
  have hfind := (store_core _ store task hnd hmem hp hq).1
  have hsa : saveAllowed (toggledTask task) = true := by
    simp [saveAllowed, toggledTask, hvt]
  have heta : toggledTask (toggledTask task) = task := by
    simp only [toggledTask, hb, truthy, Bool.not_not]
    rw [← hb]
  have hfind2 : List.find? (byIdAndUser tid c)
      (replaceTask (toggledTask task) store) = some (toggledTask task) :=
    find?_replaceTask tid c store task (toggledTask task) hnd hmem hid
      huser rfl
  have hsa2 : saveAllowed task = true := by
    simp [saveAllowed, hvt]
  have huniq : ∀ u ∈ store, u.id = task.id → u = task := fun u hu h =>
    List.inj_on_of_nodup_map hnd hu hmem (by rw [h])
  have hcancel : replaceTask task (replaceTask (toggledTask task) store) = store :=
    replaceTask_cancel store task (toggledTask task) huniq rfl
  refine ⟨by simp [toggledTask, hb, truthy], ?_, ?_⟩
  · have hmsg : truthy (toggledTask task).completed = !b := by
      simp [toggledTask, hb, truthy]
    simp only [toggleTask, hfind, saveExisting, hsa, if_true, hmsg]
    cases b <;> simp
  · have hmsg2 : truthy task.completed = b := by
      rw [hb]
      simp [truthy]
    simp only [toggleTask, hfind2, saveExisting, heta, hsa2, if_true, hmsg2, hcancel]

/-- C8 witness: Alice's incomplete task toggles to completed (message says
so) and a second toggle restores the original task and store. -/
theorem claim8_witness :
    ((List.map Task.id [sampleTask]).Nodup ∧ sampleTask ∈ [sampleTask]
      ∧ sampleTask.id = "t1" ∧ sampleTask.user = "alice"
      ∧ sampleTask.completed = JSVal.bool false ∧ strTrim sampleTask.title ≠ "")
    ∧ ((toggledTask sampleTask).completed = JSVal.bool true
      ∧ toggleTask "alice" "t1" [sampleTask]
        = (Outcome.reply 200 true (some "Task marked as completed")
            (some (toggledTask sampleTask)),
           replaceTask (toggledTask sampleTask) [sampleTask])
      ∧ toggleTask "alice" "t1" (replaceTask (toggledTask sampleTask) [sampleTask])
        = (Outcome.reply 200 true (some "Task marked as incomplete")
            (some sampleTask), [sampleTask])) :=
  ⟨by decide,
   claim8_toggle_involution "alice" "t1" [sampleTask] sampleTask false
     (by decide) (by decide) (by decide) (by decide) (by decide) (by decide)⟩

/-- C5 counterexample: `{title: null}` is a present (non-undefined) field, so
the claim says the title is overwritten with its trimmed value and the update
succeeds; instead `null.trim()` raises — the handler throws and nothing at
all is overwritten or persisted. -/
theorem claim5_counterexample :
    updateTask "alice" "t1" bodyNullTitle [sampleTask]
      = (Outcome.thrown, [sampleTask])
    ∧ bodyNullTitle.title ≠ JSVal.undef := by decide

/-- Present update values of string kind or absent — the cases in which the
trims in PUT `/:id` cannot raise. -/
def strOrAbsent : JSVal → Bool
  | .undef => true
  | .str _ => true
  | _ => false

/-- The title the update would persist passes the modelled schema validation:
an absent title keeps the (valid) old one, a present title must be a string
trimming to non-empty. -/
def titleSavable : JSVal → String → Bool
  | .undef, old => !(strTrim old == "")
  | .str s, _ => !(strTrim s == "")
  | _, _ => false

/-- C5 amended: partial-replace holds for updates that can actually succeed —
present title/description values must be strings (a present non-string makes
`trim` raise, aborting the update with nothing persisted) and the resulting
title must trim non-empty; then every absent field keeps its prior value and
every present field is overwritten: title and description trimmed, dueDate
parsed or cleared to null when falsy, priority and completed verbatim. -/
theorem claim5_update_partial_replace (c tid : String) (body : Body)
    (store : Store) (task : Task)
    (hnd : (List.map Task.id store).Nodup) (hmem : task ∈ store)
    (hid : task.id = tid) (huser : task.user = c)
    (htitle : titleSavable body.title task.title = true)
    (hdesc : strOrAbsent body.description = true) :
    updateTask c tid body store
      = (Outcome.reply 200 true (some "Task updated successfully")
          (some { task with
            title := match body.title with
              | JSVal.str s => strTrim s
              | _ => task.title,
            description := match body.description with
              | JSVal.str d => some (strTrim d)
              | _ => task.description,
            dueDate := if body.dueDate = JSVal.undef then task.dueDate
              else if truthy body.dueDate then some ⟨body.dueDate⟩ else none,
            priority := if body.priority = JSVal.undef then task.priority
              else body.priority,
            completed := if body.completed = JSVal.undef then task.completed
              else body.completed }),
         replaceTask { task with
            title := match body.title with
              | JSVal.str s => strTrim s
              | _ => task.title,
            description := match body.description with
              | JSVal.str d => some (strTrim d)
              | _ => task.description,
            dueDate := if body.dueDate = JSVal.undef then task.dueDate
              else if truthy body.dueDate then some ⟨body.dueDate⟩ else none,
            priority := if body.priority = JSVal.undef then task.priority
              else body.priority,
            completed := if body.completed = JSVal.undef then task.completed
              else body.completed } store) := by
  have hp : byIdAndUser tid c task = true := by
    simp [byIdAndUser, hid, huser]
  have hq : ∀ u, byIdAndUser tid c u = true → u.id = task.id := by
    intro u hu
    simp only [byIdAndUser, decide_eq_true_eq] at hu
    rw [hu.1, hid]
  have hfind := (store_core _ store task hnd hmem hp hq).1
  cases hbt : body.title with
  | null => rw [hbt] at htitle; simp [titleSavable] at htitle
  | bool b => rw [hbt] at htitle; simp [titleSavable] at htitle
  | num n => rw [hbt] at htitle; simp [titleSavable] at htitle
  | obj => rw [hbt] at htitle; simp [titleSavable] at htitle
  | undef =>
    rw [hbt] at htitle
    simp only [titleSavable, Bool.not_eq_true', beq_eq_false_iff_ne, ne_eq] at htitle
    cases hbd : body.description with
    | null => rw [hbd] at hdesc; simp [strOrAbsent] at hdesc
    | bool b => rw [hbd] at hdesc; simp [strOrAbsent] at hdesc
    | num n => rw [hbd] at hdesc; simp [strOrAbsent] at hdesc
    | obj => rw [hbd] at hdesc; simp [strOrAbsent] at hdesc
    | undef =>
      by_cases h3 : body.dueDate = JSVal.undef <;>
        by_cases h4 : body.priority = JSVal.undef <;>
          by_cases h5 : body.completed = JSVal.undef <;>
            simp [updateTask, hfind, updTitle, updDescription, updRest,
              saveExisting, saveAllowed, hbt, hbd, h3, h4, h5, htitle]
    | str d =>
      by_cases h3 : body.dueDate = JSVal.undef <;>
        by_cases h4 : body.priority = JSVal.undef <;>
          by_cases h5 : body.completed = JSVal.undef <;>
            simp [updateTask, hfind, updTitle, updDescription, updRest,
              saveExisting, saveAllowed, jsTrim, hbt, hbd, h3, h4, h5, htitle]
  | str s =>
    rw [hbt] at htitle
    simp only [titleSavable, Bool.not_eq_true', beq_eq_false_iff_ne, ne_eq] at htitle
    have hidem : strTrim (strTrim s) ≠ "" := by
      rw [strTrim_idem]
      exact htitle
    cases hbd : body.description with
    | null => rw [hbd] at hdesc; simp [strOrAbsent] at hdesc
    | bool b => rw [hbd] at hdesc; simp [strOrAbsent] at hdesc
    | num n => rw [hbd] at hdesc; simp [strOrAbsent] at hdesc
    | obj => rw [hbd] at hdesc; simp [strOrAbsent] at hdesc
    | undef =>
      by_cases h3 : body.dueDate = JSVal.undef <;>
        by_cases h4 : body.priority = JSVal.undef <;>
          by_cases h5 : body.completed = JSVal.undef <;>
            simp [updateTask, hfind, updTitle, updDescription, updRest,
              saveExisting, saveAllowed, jsTrim, hbt, hbd, h3, h4, h5, hidem]
    | str d =>
      by_cases h3 : body.dueDate = JSVal.undef <;>
        by_cases h4 : body.priority = JSVal.undef <;>
          by_cases h5 : body.completed = JSVal.undef <;>
            simp [updateTask, hfind, updTitle, updDescription, updRest,
              saveExisting, saveAllowed, jsTrim, hbt, hbd, h3, h4, h5, hidem]

/-- C5 witness: an update carrying a title to trim, a truthy dueDate and an
explicit completed flag overwrites exactly those fields of Alice's task and
keeps description and priority. -/
theorem claim5_witness :
    ((List.map Task.id [sampleTask]).Nodup ∧ sampleTask ∈ [sampleTask]
      ∧ sampleTask.id = "t1" ∧ sampleTask.user = "alice"
      ∧ titleSavable (JSVal.str "  New  ") sampleTask.title = true
      ∧ strOrAbsent JSVal.undef = true)
    ∧ updateTask "alice" "t1"
        ⟨.str "  New  ", .undef, .str "2025-01-01", .undef, .bool true, .undef, .undef⟩
        [sampleTask]
      = (Outcome.reply 200 true (some "Task updated successfully")
          (some { sampleTask with
            title := strTrim "  New  ",
            dueDate := some ⟨JSVal.str "2025-01-01"⟩,
            completed := JSVal.bool true }),
         replaceTask { sampleTask with
            title := strTrim "  New  ",
            dueDate := some ⟨JSVal.str "2025-01-01"⟩,
            completed := JSVal.bool true } [sampleTask]) := by
  refine ⟨by decide, ?_⟩
  have h := claim5_update_partial_replace "alice" "t1"
    ⟨.str "  New  ", .undef, .str "2025-01-01", .undef, .bool true, .undef, .undef⟩
    [sampleTask] sampleTask (by decide) (by decide) (by decide) (by decide)
    (by decide) (by decide)
  simpa using h

end TaskApi
